import Mathlib

/-!
Shallow embedding of `src/backend/main.py` (sentinel-prime backend).

Text is modelled as `List Char`; Python strings appearing in the source are
written as Lean string literals converted with `strL`.  Machine floats that
only ever flow through comparisons are modelled as `Rat`.
-/

namespace Sentinel

/-- Characters Python `str.strip()` and the regex class `\s` treat as
whitespace (ASCII range; the inputs of interest are ASCII). -/
def pyIsSpace (c : Char) : Bool :=
  c = ' ' || c = '\t' || c = '\n' || c = '\r' || c = '\x0b' || c = '\x0c'

/-- String literal to character list. -/
def strL (s : String) : List Char := s.data

/-- Python `str.strip()`. -/
def pyStrip (l : List Char) : List Char :=
  ((l.dropWhile pyIsSpace).reverse.dropWhile pyIsSpace).reverse

/-- `text.replace('\n', ' ').strip()` — the normalisation at the top of
`split_into_chunks` (main.py line 113). -/
def normalizeText (l : List Char) : List Char :=
  pyStrip (l.map fun c => if c = '\n' then ' ' else c)

/-- The sentence-ending punctuation of the delimiter regex in
`split_into_chunks` (main.py line 116).  On newline-free text the regex
`(?<=[.!?])\s+|\.\s+|\?\s+|\!\s+|;\s+|\n+|\. |\? |\! ` matches exactly a
character of this class that is immediately followed by whitespace, together
with the maximal whitespace run after it (the lookbehind alternative can
never fire first because scanning is leftmost, and `\n+` cannot fire after
newlines were replaced by spaces). -/
def delimChar (c : Char) : Bool :=
  c = '.' || c = '?' || c = '!' || c = ';'

/-- `re.split` on the delimiter pattern, as a left-to-right scan: a
delimiter character whose successor is whitespace ends the current piece and
is consumed together with the maximal whitespace run after it (the `skipping`
flag records that the scan is inside such a run). -/
def splitSentencesAux : List Char → List Char → Bool → List (List Char)
  | [], cur, _ => [cur.reverse]
  | c :: rest, cur, skipping =>
    if skipping && pyIsSpace c then
      splitSentencesAux rest cur true
    else if delimChar c && (rest.headD 'x' |> pyIsSpace) then
      cur.reverse :: splitSentencesAux rest [] true
    else
      splitSentencesAux rest (c :: cur) false

/-- Lines 113–118 of main.py: normalise, split on the delimiter regex, strip
each piece and keep the non-empty ones. -/
def sentencesOf (text : List Char) : List (List Char) :=
  ((splitSentencesAux (normalizeText text) [] false).map pyStrip).filter
    fun s => !s.isEmpty

/-- Python `str.split()` (split on whitespace runs, dropping empty pieces),
used for `sentence.split()` at line 129. -/
def pyWordsAux : List Char → List Char → List (List Char)
  | [], cur => if cur.isEmpty then [] else [cur.reverse]
  | c :: rest, cur =>
    if pyIsSpace c then
      if cur.isEmpty then pyWordsAux rest []
      else cur.reverse :: pyWordsAux rest []
    else
      pyWordsAux rest (c :: cur)

def pyWords (l : List Char) : List (List Char) := pyWordsAux l []

/-- Python `' '.join(pieces)`. -/
def joinSpace : List (List Char) → List Char
  | [] => []
  | [w] => w
  | w :: ws => w ++ ' ' :: joinSpace ws

/-- `chunks.append(' '.join(buf) + '.')` guarded by `if buf:` — the flush
used at lines 136–137, 144–145, 150–151 and 159–160 of main.py. -/
def flushChunk (buf : List (List Char)) : List (List Char) :=
  if buf = [] then [] else [joinSpace buf ++ ['.']]

/-- The word-level fallback loop of `split_into_chunks`
(main.py lines 129–145): greedily pack words, counting `len(word) + 1` per
word, flushing when the budget `max_length` would be exceeded. -/
def packWords (maxLen : Nat) : List (List Char) → List (List Char) → Nat →
    List (List Char)
  | [], temp, _ => flushChunk temp
  | w :: ws, temp, tlen =>
    if maxLen < tlen + (w.length + 1) then
      flushChunk temp ++ packWords maxLen ws [w] (w.length + 1)
    else
      packWords maxLen ws (temp ++ [w]) (tlen + (w.length + 1))

/-- The sentence-level loop of `split_into_chunks`
(main.py lines 124–160): a sentence longer than `max_length` is word-split
and its chunks are appended immediately (the pending buffer is NOT flushed
first); otherwise sentences are greedily packed by their character counts
(joining spaces and the appended period are not counted). -/
def packSentences (maxLen : Nat) : List (List Char) → List (List Char) →
    Nat → List (List Char)
  | [], cur, _ => flushChunk cur
  | s :: ss, cur, clen =>
    if maxLen < s.length then
      packWords maxLen (pyWords s) [] 0 ++ packSentences maxLen ss cur clen
    else if maxLen < clen + s.length then
      flushChunk cur ++ packSentences maxLen ss [s] s.length
    else
      packSentences maxLen ss (cur ++ [s]) (clen + s.length)

/-- `split_into_chunks(text, max_length)` — main.py lines 110–162. -/
def split_into_chunks (text : List Char) (maxLen : Nat) : List (List Char) :=
  packSentences maxLen (sentencesOf text) [] 0

/-- The non-whitespace characters of a text, in order. -/
def nonWs (l : List Char) : List Char := l.filter fun c => !pyIsSpace c

/-- Spec-side definition for the amended content-preservation claim: the
input text with every sentence-delimiter character that is immediately
followed by whitespace removed (these are exactly the characters the
delimiter regex of `split_into_chunks` consumes). -/
def scrub : List Char → List Char
  | [] => []
  | c :: rest =>
    if delimChar c && (rest.headD 'x' |> pyIsSpace) then scrub rest
    else c :: scrub rest

/-! ### Response parser (main.py lines 358–433) -/

/-- Python substring containment, `needle in hay`. -/
def containsSub (needle : List Char) : List Char → Bool
  | [] => needle.isEmpty
  | c :: t => needle.isPrefixOf (c :: t) || containsSub needle t

/-- Python `text.split(d)` for a one-character separator. -/
def splitOnChar (d : Char) : List Char → List Char → List (List Char)
  | [], cur => [cur.reverse]
  | c :: rest, cur =>
    if c = d then cur.reverse :: splitOnChar d rest []
    else splitOnChar d rest (c :: cur)

/-- Python `analysis.split("\n\n")` (leftmost, non-overlapping). -/
def splitOnNN : List Char → List Char → List (List Char)
  | [], cur => [cur.reverse]
  | '\n' :: '\n' :: rest, cur => cur.reverse :: splitOnNN rest []
  | c :: rest, cur => splitOnNN rest (c :: cur)

/-- Python `line.split(d, 1)[1]` for a line containing `d`. -/
def afterFirst (d : Char) : List Char → List Char
  | [] => []
  | c :: rest => if c = d then rest else afterFirst d rest

/-- Python `line.strip("- ")`. -/
def stripDashSpace (l : List Char) : List Char :=
  let p : Char → Bool := fun c => c = '-' || c = ' '
  ((l.dropWhile p).reverse.dropWhile p).reverse

/-- The regulation keywords scanned for at main.py line 390. -/
def regulationKeywords : List (List Char) :=
  [strL "GDPR", strL "CCPA", strL "HIPAA", strL "PCI DSS", strL "SOC 2",
   strL "ISO"]

/-- `determine_priority` — main.py lines 426–433. -/
def determine_priority (text : List Char) : List Char :=
  let tl := text.map Char.toLower
  if [strL "critical", strL "high priority", strL "urgent",
      strL "immediate"].any (fun w => containsSub w tl) then strL "high"
  else if [strL "moderate", strL "medium priority",
      strL "important"].any (fun w => containsSub w tl) then strL "medium"
  else strL "low"

structure Regulation where
  name : List Char
  relevance : List Char
  requirements : List (List Char)
  priority : List Char
deriving DecidableEq

inductive SectionTag where
  | technical
  | steps
deriving DecidableEq

structure ParseState where
  regulations : List Regulation
  technicalRequirements : List (List Char)
  nextSteps : List (List Char)
  current_section : Option SectionTag
  current_regulation : Option Regulation
deriving DecidableEq

/-- `result["regulations"].append(current_regulation)` guarded by
`if current_regulation:` (main.py lines 392–393 and 421–422). -/
def flushRegulation (st : ParseState) : ParseState :=
  match st.current_regulation with
  | some r => { st with regulations := st.regulations ++ [r] }
  | none => st

/-- The per-line body of the parsing loop — main.py lines 374–418. -/
def processLine (st : ParseState) (line0 : List Char) : ParseState :=
  let line := pyStrip line0
  if line = [] then st
  else if containsSub (strL "Technical Requirements:") line ||
      containsSub (strL "Technical Implementation:") line then
    { st with current_section := some .technical }
  else if containsSub (strL "Next Steps:") line ||
      containsSub (strL "Recommended Steps:") line then
    { st with current_section := some .steps }
  else if regulationKeywords.any (fun reg => containsSub reg line) then
    let st1 := flushRegulation st
    { st1 with
      current_regulation := some ({
        name := pyStrip ((splitOnChar ':' line []).headD []),
        relevance :=
          if containsSub [':'] line then pyStrip (afterFirst ':' line)
          else [],
        requirements := [],
        priority := determine_priority line }) }
  else if st.current_section = some SectionTag.technical ∧
      stripDashSpace line ≠ [] then
    { st with technicalRequirements :=
        st.technicalRequirements ++ [stripDashSpace line] }
  else if st.current_section = some SectionTag.steps ∧
      stripDashSpace line ≠ [] then
    { st with nextSteps := st.nextSteps ++ [stripDashSpace line] }
  else
    match st.current_regulation with
    | some r =>
      if stripDashSpace line ≠ [] then
        if r.relevance = [] ∧ containsSub [':'] line then
          { st with
            current_regulation :=
              some ({ r with relevance := pyStrip (afterFirst ':' line) }) }
        else
          { st with
            current_regulation :=
              some ({ r with requirements :=
                r.requirements ++ [stripDashSpace line] }) }
      else st
    | none => st

structure ComplianceReport where
  regulations : List Regulation
  technicalRequirements : List (List Char)
  nextSteps : List (List Char)
deriving DecidableEq

def emptyParseState : ParseState := ⟨[], [], [], none, none⟩

/-- `parse_compliance_analysis` — main.py lines 358–424. -/
def parse_compliance_analysis (analysis : List Char) : ComplianceReport :=
  let sections := splitOnNN analysis []
  let stF := sections.foldl
    (fun st sec => (splitOnChar '\n' (pyStrip sec) []).foldl processLine st)
    emptyParseState
  let stF := flushRegulation stF
  ⟨stF.regulations, stF.technicalRequirements, stF.nextSteps⟩

/-! ### Classifier gateway (main.py lines 548–607) -/

structure SentinelResponse where
  status : List Char
  message : List Char
  type : Option (List Char)
deriving DecidableEq

/-- The `attack_types` lookup table — main.py lines 570–578
(`dict.get` on an absent key yields `none`). -/
def attack_types (n : Int) : Option (List Char) :=
  if n = 1 then some (strL "DoS Attack")
  else if n = 2 then some (strL "Probe Attack")
  else if n = 3 then some (strL "Remote Access Attack")
  else if n = 4 then some (strL "Privilege Escalation Attack")
  else if n = 5 then some (strL "Data Exfiltration Attack")
  else if n = 6 then some (strL "Brute Force Attack")
  else if n = 7 then some (strL "Man-in-the-Middle Attack")
  else none

/-- `get_attack_description` — main.py lines 595–606. -/
def get_attack_description (t : List Char) : List Char :=
  if t = strL "DoS Attack" then
    strL "Detected a potential Denial of Service attack pattern. High volume of traffic attempting to overwhelm system resources."
  else if t = strL "Probe Attack" then
    strL "Detected network probe activity. Possible port scanning or network mapping attempt."
  else if t = strL "Remote Access Attack" then
    strL "Detected suspicious remote access attempt. Possible unauthorized access to system resources."
  else if t = strL "Privilege Escalation Attack" then
    strL "Detected potential privilege escalation attempt. Possible unauthorized elevation of system access."
  else if t = strL "Data Exfiltration Attack" then
    strL "Detected unusual data transfer patterns. Possible unauthorized data extraction attempt."
  else if t = strL "Brute Force Attack" then
    strL "Detected repeated access attempts. Possible brute force attack on authentication."
  else if t = strL "Man-in-the-Middle Attack" then
    strL "Detected suspicious traffic interception patterns. Possible man-in-the-middle attack."
  else strL "Potential security threat detected with unusual traffic pattern."

/-- `f"Unknown Attack (Type {prediction})"` — main.py line 580. -/
def unknownAttackLabel (n : Int) : List Char :=
  strL "Unknown Attack (Type " ++ (toString n).data ++ strL ")"

/-- `analyze_traffic_data` — main.py lines 548–593.  The pre-trained
random forest is an external black box abstracted as `predict`; the
DataFrame construction around it is plumbing. -/
def analyze_traffic_data (predict : List Rat → Int) (data : List Rat) :
    SentinelResponse :=
  let prediction := predict data
  if prediction = 0 then
    { status := strL "clean",
      message := strL "No threats detected in the traffic data.",
      type := none }
  else
    let attack_type := (attack_types prediction).getD (unknownAttackLabel prediction)
    { status := strL "malicious",
      message := get_attack_description attack_type,
      type := some attack_type }

/-! ### Upload endpoint `/api/sentinel/analyze` (main.py lines 608–664) -/

structure HttpError where
  status_code : Nat
  detail : List Char
deriving DecidableEq

/-- `client_id = username or "anonymous"` (main.py line 623; `None` and the
empty string are both falsy). -/
def client_id_of : Option (List Char) → List Char
  | some u => if u = [] then strL "anonymous" else u
  | none => strL "anonymous"

/-- Lookup in the in-memory `upload_history` dict (timestamps in
seconds). -/
def histFind (h : List (List Char × Nat)) (k : List Char) : Option Nat :=
  (h.find? fun p => p.1 == k).map (·.2)

/-- `upload_history[client_id] = current_time` (main.py line 634); the new
binding shadows any older one. -/
def histInsert (h : List (List Char × Nat)) (k : List Char) (v : Nat) :
    List (List Char × Nat) := (k, v) :: h

/-- The 500 detail produced when the blanket `except Exception` at main.py
line 660 re-raises the inner `HTTPException(400, ...)` for a malformed
payload (`str` of a starlette `HTTPException` is `"{status}: {detail}"`). -/
def invalidFormatDetail : List Char :=
  strL "Error processing file: 400: Invalid file format. Please upload a JSON file with the correct traffic data format."

/-- The `try:` body of `analyze_traffic` (main.py lines 636–664).
`payload` is the uploaded bytes parsed as a JSON array whose entries all
convert to `float` (`none` for anything else — unparseable bytes, a
non-array, or non-numeric entries); every exception the body raises,
including the 400 for a malformed payload, is caught by the blanket
`except Exception` and re-raised as a 500. -/
def analyzeUploadBody (predict : List Rat → Int)
    (history : List (List Char × Nat)) (payload : Option (List Rat)) :
    Except HttpError SentinelResponse × List (List Char × Nat) :=
  match payload with
  | some xs =>
    if xs.length = 10 then (.ok (analyze_traffic_data predict xs), history)
    else (.error ⟨500, invalidFormatDetail⟩, history)
  | none => (.error ⟨500, invalidFormatDetail⟩, history)

/-- `analyze_traffic` — main.py lines 608–664.  Returns the HTTP outcome
together with the updated `upload_history`. -/
def analyze_traffic (predict : List Rat → Int)
    (history : List (List Char × Nat)) (now : Nat) (fileSize : Nat)
    (username : Option (List Char)) (payload : Option (List Rat)) :
    Except HttpError SentinelResponse × List (List Char × Nat) :=
  if 5 * 1024 * 1024 < fileSize then
    (.error ⟨400, strL "File size too large. Please upload a file smaller than 5MB."⟩,
     history)
  else
    let client_id := client_id_of username
    match histFind history client_id with
    | some last_upload =>
      if now < last_upload + 60 then
        (.error ⟨429, strL "Please wait a minute before uploading another file."⟩,
         history)
      else analyzeUploadBody predict (histInsert history client_id now) payload
    | none => analyzeUploadBody predict (histInsert history client_id now) payload

/-! ### Request model for `/api/analyze` (main.py lines 26–31, 61–72) -/

def DEFAULT_TIMEOUT : Rat := 30
def MAX_TIMEOUT : Rat := 55
def MAX_RETRIES : Nat := 3
def MAX_CHUNK_SIZE : Nat := 400

/-- `AnalyzeRequest.validate_timeout` — main.py lines 68–72. -/
def validate_timeout (v : Rat) : Rat :=
  if v < 1 ∨ MAX_TIMEOUT < v then DEFAULT_TIMEOUT else v

structure AnalyzeRequest where
  technicalProcess : List Char
  timeout : Rat

/-- Building an `AnalyzeRequest` runs the pydantic validator on
`timeout`. -/
def mkAnalyzeRequest (technicalProcess : List Char) (timeout : Rat) :
    AnalyzeRequest :=
  { technicalProcess := technicalProcess, timeout := validate_timeout timeout }

/-! ### Dispatcher of `/api/analyze` (main.py lines 303–329) -/

structure ChunkResult where
  chunk_index : Nat
  analysis : List Char
deriving DecidableEq

/-- The list `asyncio.gather` hands back for `n` submitted chunks: one
result per chunk, in submission order, each carrying its index
(`process_chunk` returns `{"chunk_index": i, "analysis": ...}`); `f i` is
the upstream answer for chunk `i`. -/
def gatherResults (n : Nat) (f : Nat → List Char) : List ChunkResult :=
  (List.range n).map fun i => { chunk_index := i, analysis := f i }

/-- `chunk_results.sort(key=lambda x: x["chunk_index"])` — main.py
line 319: a stable sort ascending by `chunk_index`. -/
def sortChunkResults (rs : List ChunkResult) : List ChunkResult :=
  rs.mergeSort fun a b => decide (a.chunk_index ≤ b.chunk_index)

/-! ### Upstream request with retry (main.py lines 92–108, 164–221) -/

/-- The exceptions flowing through the `@retry` decorator: fastapi
`HTTPException` (carrying a status code and detail) and the
`httpx.HTTPError` family. -/
inductive ApiException where
  | httpException (status_code : Nat) (detail : List Char)
  | httpxError
deriving DecidableEq

/-- `is_cloudflare_challenge` — main.py lines 92–100. -/
def is_cloudflare_challenge (response_text : List Char) : Bool :=
  [strL "attention required! | cloudflare",
   strL "please turn javascript on",
   strL "please enable cookies",
   strL "ray id:",
   strL "cdn-cgi"].any fun m => containsSub m (response_text.map Char.toLower)

/-- `should_retry_error` — main.py lines 102–108: the selective retry
policy (429/503/502/500 or a network error).  Note that nothing in
main.py ever calls it. -/
def should_retry_error : ApiException → Bool
  | .httpException code _ => code = 429 || code = 503 || code = 502 || code = 500
  | .httpxError => true

/-- The predicate the `@retry` decorator actually uses (main.py line 167):
`retry_if_exception_type((httpx.HTTPError, HTTPException))` retries every
exception of either type. -/
def tenacity_retry_predicate : ApiException → Bool
  | .httpException _ _ => true
  | .httpxError => true

/-- The parsed JSON body of an upstream error response, as far as
`handle_http_error` inspects it: unparseable, or
`{"error": {"message": msg}}`, or some other JSON shape. -/
inductive ErrorBody where
  | notJson
  | errorMessage (msg : List Char)
  | otherJson
deriving DecidableEq

structure UpstreamResponse where
  status_code : Nat
  text : List Char
  body : ErrorBody
deriving DecidableEq

/-- What the network does on one attempt. -/
inductive UpstreamOutcome where
  | response (r : UpstreamResponse)
  | timeoutExc
  | requestError

/-- `handle_http_error` — main.py lines 206–221; it can itself raise the
401 `HTTPException` (which then replaces the one about to be raised). -/
def handle_http_error (r : UpstreamResponse) : Except ApiException (List Char) :=
  match r.body with
  | .errorMessage msg =>
    if containsSub (strL "Authentication Error") msg then
      .error (.httpException 401
        (strL "API authentication failed. Please check your API key configuration."))
    else .ok (strL "API Error: " ++ msg)
  | .notJson =>
    if is_cloudflare_challenge r.text then
      .ok (strL "API access is temporarily restricted. Please try again in a few minutes.")
    else .ok (strL "The API service is currently unavailable. Please try again later.")
  | .otherJson =>
    .ok (strL "The API service is currently unavailable. Please try again later.")

/-- One attempt of the body of `make_api_request` — main.py lines 170–204
(`raise_for_status` raises exactly for statuses ≥ 400). -/
def attemptRequest (o : UpstreamOutcome) : Except ApiException UpstreamResponse :=
  match o with
  | .timeoutExc =>
    .error (.httpException 504
      (strL "Request timed out. The system is processing a high volume of requests."))
  | .requestError =>
    .error (.httpException 503
      (strL "Service temporarily unavailable. Please try again later."))
  | .response r =>
    if (r.status_code = 403 ∨ r.status_code = 503) ∧ is_cloudflare_challenge r.text then
      .error (.httpException 503
        (strL "API access is temporarily restricted. Please try again in a few minutes."))
    else if 400 ≤ r.status_code then
      match handle_http_error r with
      | .error ex => .error ex
      | .ok d => .error (.httpException r.status_code d)
    else .ok r

/-- The tenacity `@retry(stop=stop_after_attempt(n), retry=pred)` driver:
run attempts `attempt, attempt+1, …` while failures satisfy `pred`, with
`fuel` attempts still allowed; return the outcome and the index of the
last attempt made (backoff delays do not change outcomes and are not
modelled). -/
def tenacityRun (pred : ApiException → Bool)
    (act : Nat → Except ApiException α) :
    Nat → Nat → Except ApiException α × Nat
  | attempt, fuel =>
    match act attempt with
    | .ok a => (.ok a, attempt)
    | .error e =>
      match fuel with
      | 0 => (.error e, attempt)
      | 1 => (.error e, attempt)
      | f + 2 =>
        if pred e then tenacityRun pred act (attempt + 1) (f + 1)
        else (.error e, attempt)

/-- `make_api_request` — main.py lines 164–204 — run against the upstream
behaviour `behavior` (the outcome the network produces on the i-th
attempt).  The real body also reads the undefined global
`REQUEST_TIMEOUT`; the embedding assumes that name resolves, since a
timeout value does not influence the control flow modelled here. -/
def make_api_request (behavior : Nat → UpstreamOutcome) :
    Except ApiException UpstreamResponse × Nat :=
  tenacityRun tenacity_retry_predicate (fun i => attemptRequest (behavior i))
    1 MAX_RETRIES

/-! ### Policy search (main.py lines 435–546) -/

/-- One entry of the upstream `results` array, as far as the loop at
main.py lines 488–502 reads it (`.get` of an absent key is `none`). -/
structure RawResult where
  url : Option (List Char)
  title : Option (List Char)
  snippet : Option (List Char)
  score : Option Rat
deriving DecidableEq

structure PolicyResult where
  title : List Char
  url : List Char
  snippet : List Char
  relevance_score : Rat
  domain : List Char
  category : List Char
deriving DecidableEq

/-- Python truthiness of an optional string (`None` and `""` are falsy). -/
def truthy : Option (List Char) → Bool
  | none => false
  | some s => !s.isEmpty

/-- The text after the first occurrence of `needle` (helper for
`extract_domain`). -/
def afterSub (needle : List Char) : List Char → List Char
  | [] => []
  | c :: t =>
    if needle.isPrefixOf (c :: t) then (c :: t).drop needle.length
    else afterSub needle t

/-- `extract_domain` — main.py lines 524–531.  `urllib.parse.urlparse` is
an external library; its `netloc` is modelled for URLs of the usual
`scheme://host/...` shape (and is the empty authority otherwise). -/
def extract_domain (url : List Char) : List Char :=
  if containsSub (strL "://") url then
    (afterSub (strL "://") url).takeWhile fun c =>
      !(c = '/' || c = '?' || c = '#')
  else []

/-- `categorize_domain` — main.py lines 533–546 (`search_domains` is, as
in the source, unused by the body). -/
def categorize_domain (domain : List Char) (search_domains : List (List Char)) :
    List Char :=
  let domain_lower := domain.map Char.toLower
  if [strL "europa.eu", strL "ec.europa.eu", strL "edpb.europa.eu"].any
      (fun d => containsSub d domain_lower) then strL "EU Domain"
  else if [strL "gov", strL "government"].any
      (fun d => containsSub d domain_lower) then strL "Government Domain"
  else if [strL "int", strL "un.org", strL "who.int"].any
      (fun d => containsSub d domain_lower) then strL "International Organization"
  else if (strL ".org").isSuffixOf domain_lower then strL "Non-Profit Organization"
  else strL "Other"

/-- Annotating one surviving raw result (main.py lines 492–502). -/
def build_result (u : List Char) (r : RawResult) (domains : List (List Char)) :
    PolicyResult :=
  let domain := extract_domain u
  { title := r.title.getD [],
    url := u,
    snippet := r.snippet.getD [],
    relevance_score := r.score.getD 0,
    domain := domain,
    category := categorize_domain domain domains }

/-- The result-collection loop with its `seen_urls` set — main.py
lines 485–502: keep a result only if its url is truthy, unseen, and its
title is truthy; only kept urls enter `seen_urls`. -/
def collect_results (domains : List (List Char)) :
    List RawResult → List (List Char) → List PolicyResult
  | [], _ => []
  | r :: rs, seen =>
    match r.url with
    | some u =>
      if u ≠ [] ∧ u ∉ seen ∧ truthy r.title then
        build_result u r domains :: collect_results domains rs (u :: seen)
      else collect_results domains rs seen
    | none => collect_results domains rs seen

/-- The list `/api/search-policies` returns: collected results sorted by
`relevance_score` descending — main.py line 505
(`list.sort(key=..., reverse=True)` is a stable descending sort). -/
def search_policies_results (domains : List (List Char))
    (raw : List RawResult) : List PolicyResult :=
  (collect_results domains raw []).mergeSort fun a b =>
    decide (b.relevance_score ≤ a.relevance_score)

/-- Spec-side phrasing of the dedup rule, for the refinement proof: drop
results missing a url or title, then keep the first occurrence of each
url. -/
def dedupFirstByUrl : List RawResult → List (List Char) → List RawResult
  | [], _ => []
  | r :: rs, seen =>
    match r.url with
    | some u =>
      if u ∈ seen then dedupFirstByUrl rs seen
      else r :: dedupFirstByUrl rs (u :: seen)
    | none => dedupFirstByUrl rs seen

/-- The survivors of the claimed policy: results with a url and a title,
first occurrence of each url. -/
def specSurvivors (raw : List RawResult) : List RawResult :=
  dedupFirstByUrl (raw.filter fun r => truthy r.url && truthy r.title) []

/-! ## Supporting lemmas -/

theorem nonWs_append (a b : List Char) : nonWs (a ++ b) = nonWs a ++ nonWs b := by
  simp [nonWs]

theorem nonWs_cons_space {c : Char} (h : pyIsSpace c = true) (l : List Char) :
    nonWs (c :: l) = nonWs l := by
  simp [nonWs, List.filter_cons, h]

theorem nonWs_cons_keep {c : Char} (h : pyIsSpace c = false) (l : List Char) :
    nonWs (c :: l) = c :: nonWs l := by
  simp [nonWs, List.filter_cons, h]

theorem delim_not_space {c : Char} (h : pyIsSpace c = true) :
    delimChar c = false := by
  simp only [pyIsSpace, Bool.or_eq_true, decide_eq_true_eq] at h
  rcases h with ((((rfl | rfl) | rfl) | rfl) | rfl) | rfl <;> decide

theorem nonWs_dropWhile_space (l : List Char) :
    nonWs (l.dropWhile pyIsSpace) = nonWs l := by
  induction l with
  | nil => rfl
  | cons c t ih =>
    by_cases h : pyIsSpace c
    · rw [List.dropWhile_cons_of_pos h, ih, nonWs_cons_space h]
    · rw [List.dropWhile_cons_of_neg h]

theorem nonWs_reverse (l : List Char) : nonWs l.reverse = (nonWs l).reverse := by
  simp [nonWs]

theorem nonWs_pyStrip (l : List Char) : nonWs (pyStrip l) = nonWs l := by
  unfold pyStrip
  rw [nonWs_reverse, nonWs_dropWhile_space, nonWs_reverse,
    List.reverse_reverse, nonWs_dropWhile_space]

theorem nonWs_joinSpace (l : List (List Char)) :
    nonWs (joinSpace l) = nonWs l.flatten := by
  induction l with
  | nil => rfl
  | cons w ws ih =>
    cases ws with
    | nil => simp [joinSpace]
    | cons w2 ws2 =>
      rw [joinSpace, List.flatten_cons, nonWs_append, nonWs_append,
        nonWs_cons_space (by decide), ih]
      simp

theorem flatten_filter_nonempty (L : List (List Char)) :
    (L.filter fun s => !s.isEmpty).flatten = L.flatten := by
  induction L with
  | nil => rfl
  | cons s t ih =>
    by_cases h : s.isEmpty
    · have hs : s = [] := by simpa [List.isEmpty_iff] using h
      simp [List.filter_cons, h, hs, ih]
    · simp [List.filter_cons, h, ih]

theorem nonWs_flatten_map_strip (L : List (List Char)) :
    nonWs (List.flatten (L.map pyStrip)) = nonWs L.flatten := by
  induction L with
  | nil => rfl
  | cons s t ih =>
    simp only [List.map_cons, List.flatten_cons, nonWs_append, ih, nonWs_pyStrip]

theorem nonWs_flatten_splitSentencesAux :
    ∀ (l cur : List Char) (skipping : Bool),
      nonWs (List.flatten (splitSentencesAux l cur skipping)) =
        nonWs cur.reverse ++ nonWs (scrub l)
  | [], cur, skipping => by
    simp [splitSentencesAux, scrub, nonWs]
  | c :: rest, cur, skipping => by
    rw [splitSentencesAux, scrub]
    by_cases h1 : skipping && pyIsSpace c
    · have hsp : pyIsSpace c = true := (Bool.and_eq_true _ _ |>.mp h1).2
      have hd : delimChar c = false := delim_not_space hsp
      rw [if_pos h1, if_neg (by simp [hd]),
        nonWs_flatten_splitSentencesAux rest cur true, nonWs_cons_space hsp]
    · rw [if_neg h1]
      by_cases h2 : delimChar c && (rest.headD 'x' |> pyIsSpace)
      · rw [if_pos h2, if_pos h2, List.flatten_cons, nonWs_append,
          nonWs_flatten_splitSentencesAux rest [] true]
        simp [nonWs]
      · rw [if_neg h2, if_neg h2, nonWs_flatten_splitSentencesAux rest (c :: cur) false]
        by_cases hc : pyIsSpace c
        · rw [List.reverse_cons, nonWs_append, nonWs_cons_space hc,
            nonWs_cons_space hc]
          simp [nonWs]
        · rw [List.reverse_cons, nonWs_append,
            nonWs_cons_keep (Bool.of_not_eq_true hc),
            nonWs_cons_keep (Bool.of_not_eq_true hc)]
          simp [nonWs]

theorem flushChunk_nonWs (buf : List (List Char)) :
    nonWs (List.flatten ((flushChunk buf).map List.dropLast)) =
      nonWs buf.flatten := by
  by_cases h : buf = []
  · simp [flushChunk, h]
  · rw [flushChunk, if_neg h]
    simp only [List.map_cons, List.map_nil, List.dropLast_concat,
      List.flatten_cons, List.flatten_nil, List.append_nil]
    exact nonWs_joinSpace buf

theorem packSentences_nonWs (maxLen : Nat) :
    ∀ (ss cur : List (List Char)) (clen : Nat),
      (∀ s ∈ ss, s.length ≤ maxLen) →
      nonWs (List.flatten ((packSentences maxLen ss cur clen).map List.dropLast)) =
        nonWs cur.flatten ++ nonWs ss.flatten
  | [], cur, clen, _ => by
    rw [packSentences, flushChunk_nonWs]
    simp [nonWs]
  | s :: ss, cur, clen, h => by
    have hs : s.length ≤ maxLen := h s (List.mem_cons_self s ss)
    have hss : ∀ x ∈ ss, x.length ≤ maxLen := fun x hx => h x (List.mem_cons_of_mem s hx)
    rw [packSentences, if_neg (by omega)]
    by_cases h2 : maxLen < clen + s.length
    · rw [if_pos h2, List.map_append, List.flatten_append, nonWs_append,
        flushChunk_nonWs, packSentences_nonWs maxLen ss [s] s.length hss]
      simp [nonWs_append]
    · rw [if_neg h2, packSentences_nonWs maxLen ss (cur ++ [s]) (clen + s.length) hss]
      simp [nonWs_append]

/-! ## Claim theorems -/

/-- C6: `parse_compliance_analysis` applied to the input consisting of the
line "GDPR: protects personal data", then the line
"Technical Requirements:", then the line "- encryption at rest" returns a
report with exactly one regulation, named "GDPR" with relevance
"protects personal data", and technicalRequirements equal to
["encryption at rest"]. -/
theorem C6_parse_example :
    parse_compliance_analysis
        (strL "GDPR: protects personal data\nTechnical Requirements:\n- encryption at rest") =
      { regulations := [{ name := strL "GDPR",
                          relevance := strL "protects personal data",
                          requirements := [],
                          priority := strL "low" }],
        technicalRequirements := [strL "encryption at rest"],
        nextSteps := [] } := by
  decide

/-- C7: `analyze_traffic_data` maps class id 0 to status "clean" with
type `none`, class id 3 to status "malicious" with type
"Remote Access Attack", and any class id outside the lookup table (and
nonzero) to status "malicious" with the non-empty generic label
"Unknown Attack (Type N)" mentioning the class id — never an error. -/
theorem C7_class_mapping (predict : List Rat → Int) (data : List Rat) :
    (predict data = 0 →
      analyze_traffic_data predict data =
        { status := strL "clean",
          message := strL "No threats detected in the traffic data.",
          type := none }) ∧
    (predict data = 3 →
      (analyze_traffic_data predict data).status = strL "malicious" ∧
      (analyze_traffic_data predict data).type =
        some (strL "Remote Access Attack")) ∧
    (∀ n : Int, predict data = n → n ≠ 0 → attack_types n = none →
      (analyze_traffic_data predict data).status = strL "malicious" ∧
      (analyze_traffic_data predict data).type = some (unknownAttackLabel n) ∧
      unknownAttackLabel n ≠ []) := by
  refine ⟨fun h0 => ?_, fun h3 => ?_, fun n hn hn0 ht => ?_⟩
  · simp [analyze_traffic_data, h0]
  · constructor <;> simp [analyze_traffic_data, h3, attack_types]
  · refine ⟨?_, ?_, ?_⟩
    · simp [analyze_traffic_data, hn, hn0]
    · simp [analyze_traffic_data, hn, hn0, ht]
    · simp [unknownAttackLabel, strL]

/-- Witness for C7 at the concrete class ids 0, 3 and 99. -/
theorem C7_class_mapping_witness :
    analyze_traffic_data (fun _ => 0) [] =
      { status := strL "clean",
        message := strL "No threats detected in the traffic data.",
        type := none } ∧
    (analyze_traffic_data (fun _ => 3) []).type =
      some (strL "Remote Access Attack") ∧
    (analyze_traffic_data (fun _ => 99) []).status = strL "malicious" ∧
    (analyze_traffic_data (fun _ => 99) []).type =
      some (unknownAttackLabel 99) ∧
    unknownAttackLabel 99 ≠ [] :=
  ⟨(C7_class_mapping (fun _ => 0) []).1 rfl,
   ((C7_class_mapping (fun _ => 3) []).2.1 rfl).2,
   ((C7_class_mapping (fun _ => 99) []).2.2 99 rfl (by decide) (by decide)).1,
   ((C7_class_mapping (fun _ => 99) []).2.2 99 rfl (by decide) (by decide)).2.1,
   ((C7_class_mapping (fun _ => 99) []).2.2 99 rfl (by decide) (by decide)).2.2⟩

/-- C10: the validated timeout of every `AnalyzeRequest` lies in [1, 55],
and a caller value below 1 or above 55 is silently replaced by the default
30 rather than rejected. -/
theorem C10_timeout_clamped (s : List Char) (v : Rat) :
    (1 ≤ (mkAnalyzeRequest s v).timeout ∧ (mkAnalyzeRequest s v).timeout ≤ 55) ∧
    ((v < 1 ∨ 55 < v) → (mkAnalyzeRequest s v).timeout = 30) := by
  constructor
  · simp only [mkAnalyzeRequest, validate_timeout, MAX_TIMEOUT, DEFAULT_TIMEOUT]
    split
    · norm_num
    · next h =>
      push_neg at h
      exact ⟨h.1, h.2⟩
  · intro h
    simp only [mkAnalyzeRequest, validate_timeout, MAX_TIMEOUT, DEFAULT_TIMEOUT,
      if_pos h]

/-- Witness for C10 at the out-of-range value 60 and the in-range value 2. -/
theorem C10_timeout_clamped_witness :
    (mkAnalyzeRequest [] 60).timeout = 30 ∧
    (1 ≤ (mkAnalyzeRequest [] 2).timeout ∧ (mkAnalyzeRequest [] 2).timeout ≤ 55) :=
  ⟨(C10_timeout_clamped [] 60).2 (Or.inr (by norm_num)),
   (C10_timeout_clamped [] 2).1⟩

/-- C3 (code bug): an upload whose payload is not parseable as a JSON
array of exactly 10 numeric values, sent by a fresh client with an
acceptable file size, is answered with HTTP 500 — not the 400 the claim
states.  The endpoint does raise `HTTPException(400, ...)` for exactly
this case, but the blanket `except Exception` at main.py line 660 catches
it and re-raises it as a 500. -/
theorem C3_malformed_upload_gives_500 :
    (analyze_traffic (fun _ => 0) [] 0 3 none none).1 =
      .error { status_code := 500, detail := invalidFormatDetail } ∧
    (analyze_traffic (fun _ => 0) [] 0 3 none (some [1, 2])).1 =
      .error { status_code := 500, detail := invalidFormatDetail } ∧
    (500 : Nat) ≠ 400 := by
  refine ⟨rfl, rfl, by decide⟩

/-- C4 (code bug): the `@retry` decorator of `make_api_request` retries on
every `HTTPException`, not only transient ones: an upstream that steadily
answers HTTP 404 (no challenge page) is attempted `MAX_RETRIES = 3` times
before the 404 propagates, even though `should_retry_error` — the
never-called selective policy matching the claim — classifies that
failure as not-to-be-retried. -/
theorem C4_nontransient_is_retried :
    make_api_request
        (fun _ => .response { status_code := 404, text := strL "not found",
                              body := ErrorBody.otherJson }) =
      (.error (.httpException 404
        (strL "The API service is currently unavailable. Please try again later.")), 3) ∧
    should_retry_error (.httpException 404
      (strL "The API service is currently unavailable. Please try again later.")) = false := by
  refine ⟨rfl, by decide⟩

/-- C9: `analyze_traffic` records the per-client timestamp before the
payload is validated, so an upload rejected as malformed still counts
against the rate limit: a second upload from the same client id within 60
seconds of the rejected one is refused with 429. -/
theorem C9_rejected_upload_still_throttles (predict : List Rat → Int)
    (h0 : List (List Char × Nat)) (t tn size1 size2 : Nat)
    (username : Option (List Char)) (payload2 : Option (List Rat))
    (hfresh : histFind h0 (client_id_of username) = none)
    (hs1 : size1 ≤ 5 * 1024 * 1024) (hs2 : size2 ≤ 5 * 1024 * 1024)
    (htime : tn < t + 60) :
    (analyze_traffic predict h0 t size1 username none).1 =
      .error { status_code := 500, detail := invalidFormatDetail } ∧
    (analyze_traffic predict (analyze_traffic predict h0 t size1 username none).2
        tn size2 username payload2).1 =
      .error { status_code := 429,
               detail := strL "Please wait a minute before uploading another file." } := by
  have hns1 : ¬ (5 * 1024 * 1024 < size1) := Nat.not_lt.mpr hs1
  have hns2 : ¬ (5 * 1024 * 1024 < size2) := Nat.not_lt.mpr hs2
  have h1 : analyze_traffic predict h0 t size1 username none =
      (.error { status_code := 500, detail := invalidFormatDetail },
       histInsert h0 (client_id_of username) t) := by
    simp [analyze_traffic, hns1, hfresh, analyzeUploadBody]
  have hf2 : histFind (histInsert h0 (client_id_of username) t)
      (client_id_of username) = some t := by
    simp [histFind, histInsert]
  refine ⟨by rw [h1], ?_⟩
  rw [h1]
  simp [analyze_traffic, hns2, hf2, htime]

/-- Witness for C9: a fresh anonymous client uploads garbage at t = 0 and
anything at t = 59; the first answer is the (mis-labelled) 500, the second
is the 429. -/
theorem C9_rejected_upload_still_throttles_witness :
    (analyze_traffic (fun _ => 0) [] 0 3 none none).1 =
      .error { status_code := 500, detail := invalidFormatDetail } ∧
    (analyze_traffic (fun _ => 0) (analyze_traffic (fun _ => 0) [] 0 3 none none).2
        59 3 none (some [1, 2, 3, 4, 5, 6, 7, 8, 9, 10])).1 =
      .error { status_code := 429,
               detail := strL "Please wait a minute before uploading another file." } :=
  C9_rejected_upload_still_throttles (fun _ => 0) [] 0 59 3 3 none
    (some [1, 2, 3, 4, 5, 6, 7, 8, 9, 10]) rfl (by decide) (by decide) (by decide)

/-- C5: the reassembly logic of `/api/analyze`: however the `n` per-chunk
results are ordered when they come back (any permutation of the gathered
list), sorting by `chunk_index` yields exactly `n` results, pairwise
ascending in `chunk_index`, whose index sequence is exactly `0, …, n-1`. -/
theorem C5_results_sorted (n : Nat) (f : Nat → List Char)
    (completed : List ChunkResult)
    (hperm : completed.Perm (gatherResults n f)) :
    (sortChunkResults completed).length = n ∧
    List.Pairwise (fun a b : ChunkResult => a.chunk_index ≤ b.chunk_index)
      (sortChunkResults completed) ∧
    (sortChunkResults completed).map ChunkResult.chunk_index = List.range n := by
  have htrans : ∀ a b c : ChunkResult,
      decide (a.chunk_index ≤ b.chunk_index) = true →
      decide (b.chunk_index ≤ c.chunk_index) = true →
      decide (a.chunk_index ≤ c.chunk_index) = true := by
    intro a b c hab hbc
    simp only [decide_eq_true_eq] at hab hbc ⊢
    omega
  have htotal : ∀ a b : ChunkResult,
      (decide (a.chunk_index ≤ b.chunk_index) ||
        decide (b.chunk_index ≤ a.chunk_index)) = true := by
    intro a b
    rcases Nat.le_total a.chunk_index b.chunk_index with h | h <;>
      simp [h]
  have hperm2 : (sortChunkResults completed).Perm (gatherResults n f) :=
    (List.mergeSort_perm completed _).trans hperm
  have hsorted : List.Pairwise
      (fun a b : ChunkResult => a.chunk_index ≤ b.chunk_index)
      (sortChunkResults completed) := by
    have := List.sorted_mergeSort htrans htotal completed
    exact this.imp fun h => by simpa using h
  refine ⟨?_, hsorted, ?_⟩
  · rw [hperm2.length_eq]
    simp [gatherResults]
  · have hmr : (gatherResults n f).map ChunkResult.chunk_index = List.range n := by
      unfold gatherResults
      rw [List.map_map]
      have hcomp : (ChunkResult.chunk_index ∘ fun i => ChunkResult.mk i (f i)) = id := rfl
      rw [hcomp, List.map_id]
    have hps : ((sortChunkResults completed).map ChunkResult.chunk_index).Perm
        (List.range n) := by
      rw [← hmr]
      exact hperm2.map _
    have hsm : List.Pairwise (· ≤ ·)
        ((sortChunkResults completed).map ChunkResult.chunk_index) :=
      List.Pairwise.map _ (fun a b h => h) hsorted
    have hrs : List.Pairwise (· ≤ ·) (List.range n) :=
      (List.pairwise_lt_range n).imp Nat.le_of_lt
    exact List.eq_of_perm_of_sorted hps hsm hrs

/-- Witness for C5: three results coming back in the order 2, 0, 1 are
re-ordered to indices 0, 1, 2. -/
theorem C5_results_sorted_witness :
    (sortChunkResults [{ chunk_index := 2, analysis := strL "c" },
                       { chunk_index := 0, analysis := strL "a" },
                       { chunk_index := 1, analysis := strL "b" }]).length = 3 ∧
    List.Pairwise (fun a b : ChunkResult => a.chunk_index ≤ b.chunk_index)
      (sortChunkResults [{ chunk_index := 2, analysis := strL "c" },
                         { chunk_index := 0, analysis := strL "a" },
                         { chunk_index := 1, analysis := strL "b" }]) ∧
    (sortChunkResults [{ chunk_index := 2, analysis := strL "c" },
                       { chunk_index := 0, analysis := strL "a" },
                       { chunk_index := 1, analysis := strL "b" }]).map
      ChunkResult.chunk_index = List.range 3 :=
  C5_results_sorted 3
    (fun i => if i = 0 then strL "a" else if i = 1 then strL "b" else strL "c")
    _ (by decide)

/-- The collection loop of `search_policies` agrees with the claimed
policy: filter out results missing a url or title, keep the first
occurrence of each url, annotate the survivors. -/
theorem collect_results_eq_spec (domains : List (List Char)) :
    ∀ (raw : List RawResult) (seen : List (List Char)),
      collect_results domains raw seen =
        (dedupFirstByUrl (raw.filter fun r => truthy r.url && truthy r.title)
            seen).map
          (fun r => build_result (r.url.getD []) r domains)
  | [], seen => by simp [collect_results, dedupFirstByUrl]
  | r :: rs, seen => by
    cases hu : r.url with
    | none =>
      have hn : truthy (none : Option (List Char)) = false := rfl
      simp [collect_results, hu, List.filter_cons, hn,
        collect_results_eq_spec domains rs seen]
    | some u =>
      by_cases hne : u = []
      · have hs0 : truthy (some ([] : List Char)) = false := rfl
        simp [collect_results, hu, hne, List.filter_cons, hs0,
          collect_results_eq_spec domains rs seen]
      · have hie : u.isEmpty = false := by
          cases u
          · exact absurd rfl hne
          · rfl
        have hsu : truthy (some u) = true := by simp [truthy, hie]
        by_cases htl : truthy r.title = true
        · by_cases hseen : u ∈ seen
          · have hcond : ¬(u ≠ [] ∧ u ∉ seen ∧ truthy r.title = true) := by
              simp [hseen]
            simp [collect_results, hu, hcond, List.filter_cons, hsu, htl,
              dedupFirstByUrl, hseen, collect_results_eq_spec domains rs seen]
          · have hcond : u ≠ [] ∧ u ∉ seen ∧ truthy r.title = true :=
              ⟨hne, hseen, htl⟩
            simp [collect_results, hu, hcond, List.filter_cons, hsu, htl,
              dedupFirstByUrl, hseen,
              collect_results_eq_spec domains rs (u :: seen)]
        · have htl2 : truthy r.title = false := by
            revert htl
            cases truthy r.title <;> simp
          have hcond : ¬(u ≠ [] ∧ u ∉ seen ∧ truthy r.title = true) := by
            simp [htl2]
          simp [collect_results, hu, hcond, List.filter_cons, hsu, htl2,
            collect_results_eq_spec domains rs seen]

/-- C8: the policy search keeps only the first occurrence of each url
(dropping later duplicates and results missing a url or title), and
returns the survivors sorted non-increasing in `relevance_score`; equal
scores keep their relative upstream order (the sort is stable: a pair
already in weakly descending collection order stays in that order). -/
theorem C8_dedup_and_ranking (domains : List (List Char)) (raw : List RawResult) :
    collect_results domains raw [] =
      (specSurvivors raw).map (fun r => build_result (r.url.getD []) r domains) ∧
    List.Pairwise
      (fun a b : PolicyResult => b.relevance_score ≤ a.relevance_score)
      (search_policies_results domains raw) ∧
    (search_policies_results domains raw).Perm (collect_results domains raw []) ∧
    (∀ a b : PolicyResult, [a, b].Sublist (collect_results domains raw []) →
      b.relevance_score ≤ a.relevance_score →
      [a, b].Sublist (search_policies_results domains raw)) := by
  have htrans : ∀ a b c : PolicyResult,
      decide (b.relevance_score ≤ a.relevance_score) = true →
      decide (c.relevance_score ≤ b.relevance_score) = true →
      decide (c.relevance_score ≤ a.relevance_score) = true := by
    intro a b c h1 h2
    simp only [decide_eq_true_eq] at h1 h2 ⊢
    exact le_trans h2 h1
  have htotal : ∀ a b : PolicyResult,
      (decide (b.relevance_score ≤ a.relevance_score) ||
        decide (a.relevance_score ≤ b.relevance_score)) = true := by
    intro a b
    rcases le_total a.relevance_score b.relevance_score with h | h <;> simp [h]
  refine ⟨collect_results_eq_spec domains raw [], ?_, ?_, ?_⟩
  · have hs := List.sorted_mergeSort htrans htotal (collect_results domains raw [])
    rw [search_policies_results]
    exact hs.imp fun h => by simpa using h
  · rw [search_policies_results]
    exact List.mergeSort_perm _ _
  · intro a b hsub hle
    rw [search_policies_results]
    refine List.sublist_mergeSort htrans htotal ?_ hsub
    refine List.pairwise_cons.mpr ⟨?_, List.pairwise_singleton _ _⟩
    intro y hy
    rw [List.mem_singleton] at hy
    subst hy
    simpa using hle

/-- Witness for C8: of three upstream results, the second repeats the
first url (and is dropped although it scores higher), the third ties the
first on score and stays behind it after ranking. -/
theorem C8_dedup_and_ranking_witness :
    (search_policies_results []
        [{ url := some (strL "u1"), title := some (strL "t1"), snippet := none, score := some 2 },
         { url := some (strL "u1"), title := some (strL "tB"), snippet := none, score := some 9 },
         { url := some (strL "u2"), title := some (strL "t2"), snippet := none, score := some 2 }]).Perm
      (collect_results []
        [{ url := some (strL "u1"), title := some (strL "t1"), snippet := none, score := some 2 },
         { url := some (strL "u1"), title := some (strL "tB"), snippet := none, score := some 9 },
         { url := some (strL "u2"), title := some (strL "t2"), snippet := none, score := some 2 }] []) ∧
    [build_result (strL "u1")
        { url := some (strL "u1"), title := some (strL "t1"), snippet := none, score := some 2 } [],
     build_result (strL "u2")
        { url := some (strL "u2"), title := some (strL "t2"), snippet := none, score := some 2 } []].Sublist
      (search_policies_results []
        [{ url := some (strL "u1"), title := some (strL "t1"), snippet := none, score := some 2 },
         { url := some (strL "u1"), title := some (strL "tB"), snippet := none, score := some 9 },
         { url := some (strL "u2"), title := some (strL "t2"), snippet := none, score := some 2 }]) :=
  ⟨(C8_dedup_and_ranking []
      [{ url := some (strL "u1"), title := some (strL "t1"), snippet := none, score := some 2 },
       { url := some (strL "u1"), title := some (strL "tB"), snippet := none, score := some 9 },
       { url := some (strL "u2"), title := some (strL "t2"), snippet := none, score := some 2 }]).2.2.1,
   (C8_dedup_and_ranking []
      [{ url := some (strL "u1"), title := some (strL "t1"), snippet := none, score := some 2 },
       { url := some (strL "u1"), title := some (strL "tB"), snippet := none, score := some 9 },
       { url := some (strL "u2"), title := some (strL "t2"), snippet := none, score := some 2 }]).2.2.2
     _ _ (by decide) (by decide)⟩

/-- Every word `str.split()` produces is non-empty and free of
whitespace. -/
theorem pyWordsAux_sound :
    ∀ (l cur : List Char), (∀ c ∈ cur, pyIsSpace c = false) →
      ∀ w ∈ pyWordsAux l cur, w ≠ [] ∧ ∀ ch ∈ w, pyIsSpace ch = false
  | [], cur, hcur => by
    intro w hw
    rw [pyWordsAux] at hw
    split at hw
    · simp at hw
    · next hne =>
      rw [List.mem_singleton] at hw
      subst hw
      refine ⟨?_, ?_⟩
      · simp only [ne_eq, List.reverse_eq_nil_iff]
        intro hc
        rw [hc] at hne
        exact hne rfl
      · intro ch hch
        exact hcur ch (List.mem_reverse.mp hch)
  | c :: rest, cur, hcur => by
    intro w hw
    rw [pyWordsAux] at hw
    by_cases hc : pyIsSpace c
    · rw [if_pos hc] at hw
      split at hw
      · exact pyWordsAux_sound rest [] (by simp) w hw
      · next hne =>
        rw [List.mem_cons] at hw
        rcases hw with hw | hw
        · subst hw
          refine ⟨?_, fun ch hch => hcur ch (List.mem_reverse.mp hch)⟩
          simp only [ne_eq, List.reverse_eq_nil_iff]
          intro hc2
          rw [hc2] at hne
          exact hne rfl
        · exact pyWordsAux_sound rest [] (by simp) w hw
    · rw [if_neg hc] at hw
      refine pyWordsAux_sound rest (c :: cur) ?_ w hw
      intro x hx
      rcases List.mem_cons.mp hx with hx | hx
      · subst hx
        exact Bool.of_not_eq_true hc
      · exact hcur x hx

/-- The length of a space-join, for a non-empty list of pieces. -/
theorem joinSpace_length :
    ∀ (l : List (List Char)), l ≠ [] →
      (joinSpace l).length + 1 = (l.map List.length).sum + l.length
  | [], h => absurd rfl h
  | [w], _ => by simp [joinSpace]
  | w :: w2 :: ws, _ => by
    have ih := joinSpace_length (w2 :: ws) (by simp)
    rw [joinSpace]
    · simp only [List.length_append, List.length_cons, List.map_cons,
        List.sum_cons] at ih ⊢
      omega
    · simp

theorem sum_map_add_one (l : List (List Char)) :
    (l.map fun w => w.length + 1).sum = (l.map List.length).sum + l.length := by
  induction l with
  | nil => rfl
  | cons w ws ih =>
    simp only [List.map_cons, List.sum_cons, List.length_cons, ih]
    omega

theorem length_le_sum_of_ne_nil :
    ∀ (l : List (List Char)), (∀ s ∈ l, s ≠ []) →
      l.length ≤ (l.map List.length).sum
  | [], _ => Nat.le_refl 0
  | s :: t, h => by
    have hs : 1 ≤ s.length := by
      have hne := h s (List.mem_cons_self s t)
      cases s
      · exact absurd rfl hne
      · simp
    have ih := length_le_sum_of_ne_nil t fun x hx =>
      h x (List.mem_cons_of_mem s hx)
    simp only [List.length_cons, List.map_cons, List.sum_cons]
    omega

/-- Flushing a word buffer yields a chunk within twice the budget, unless
the buffer is a single oversized word, which passes through with only the
terminal period appended. -/
theorem flushChunk_words_sound (maxLen : Nat) (buf : List (List Char))
    (blen : Nat)
    (hsum : blen = (buf.map fun w => w.length + 1).sum)
    (hbound : blen ≤ maxLen ∨ ∃ w, buf = [w] ∧ maxLen < w.length + 1)
    (hwords : ∀ w ∈ buf, w ≠ [] ∧ ∀ ch ∈ w, pyIsSpace ch = false) :
    ∀ c ∈ flushChunk buf,
      c ≠ [] ∧ (c.length ≤ 2 * maxLen ∨
        ∃ w, c = w ++ ['.'] ∧ maxLen ≤ w.length ∧
          ∀ ch ∈ w, pyIsSpace ch = false) := by
  intro c hc
  rw [flushChunk] at hc
  split at hc
  · simp at hc
  · next hbe =>
    rw [List.mem_singleton] at hc
    subst hc
    refine ⟨by simp, ?_⟩
    rcases hbound with hb | ⟨w, rfl, hw⟩
    · left
      have hj := joinSpace_length buf hbe
      have hs2 := sum_map_add_one buf
      simp only [List.length_append, List.length_cons, List.length_nil]
      omega
    · right
      refine ⟨w, by simp [joinSpace], ?_, (hwords w (by simp)).2⟩
      omega

/-- Every chunk the word-level fallback emits is non-empty and within
twice the budget, except single oversized words. -/
theorem packWords_sound (maxLen : Nat) :
    ∀ (ws temp : List (List Char)) (tlen : Nat),
      tlen = (temp.map fun w => w.length + 1).sum →
      (tlen ≤ maxLen ∨ ∃ w, temp = [w] ∧ maxLen < w.length + 1) →
      (∀ w ∈ temp, w ≠ [] ∧ ∀ ch ∈ w, pyIsSpace ch = false) →
      (∀ w ∈ ws, w ≠ [] ∧ ∀ ch ∈ w, pyIsSpace ch = false) →
      ∀ c ∈ packWords maxLen ws temp tlen,
        c ≠ [] ∧ (c.length ≤ 2 * maxLen ∨
          ∃ w, c = w ++ ['.'] ∧ maxLen ≤ w.length ∧
            ∀ ch ∈ w, pyIsSpace ch = false)
  | [], temp, tlen, hsum, hbound, htemp, _ => by
    intro c hc
    rw [packWords] at hc
    exact flushChunk_words_sound maxLen temp tlen hsum hbound htemp c hc
  | w :: ws, temp, tlen, hsum, hbound, htemp, hws => by
    intro c hc
    have hw := hws w (List.mem_cons_self w ws)
    have hws2 : ∀ x ∈ ws, x ≠ [] ∧ ∀ ch ∈ x, pyIsSpace ch = false :=
      fun x hx => hws x (List.mem_cons_of_mem w hx)
    rw [packWords] at hc
    split at hc
    · rw [List.mem_append] at hc
      rcases hc with hc | hc
      · exact flushChunk_words_sound maxLen temp tlen hsum hbound htemp c hc
      · refine packWords_sound maxLen ws [w] (w.length + 1) (by simp) ?_ ?_ hws2 c hc
        · rcases Nat.lt_or_ge maxLen (w.length + 1) with h | h
          · exact Or.inr ⟨w, rfl, h⟩
          · exact Or.inl h
        · intro x hx
          rw [List.mem_singleton] at hx
          subst hx
          exact hw
    · next hle =>
      refine packWords_sound maxLen ws (temp ++ [w]) (tlen + (w.length + 1))
        (by simp [hsum]) (Or.inl (Nat.le_of_not_lt hle)) ?_ hws2 c hc
      intro x hx
      rcases List.mem_append.mp hx with hx | hx
      · exact htemp x hx
      · rw [List.mem_singleton] at hx
        subst hx
        exact hw

/-- Flushing a sentence buffer whose character count is within budget
yields a non-empty chunk of at most twice the budget (spaces and the
terminal period account for the overshoot). -/
theorem flushChunk_sentences_sound (maxLen : Nat) (buf : List (List Char))
    (blen : Nat)
    (hsum : blen = (buf.map List.length).sum)
    (hb : blen ≤ maxLen)
    (hne : ∀ s ∈ buf, s ≠ []) :
    ∀ c ∈ flushChunk buf, c ≠ [] ∧ c.length ≤ 2 * maxLen := by
  intro c hc
  rw [flushChunk] at hc
  split at hc
  · simp at hc
  · next hbe =>
    rw [List.mem_singleton] at hc
    subst hc
    refine ⟨by simp, ?_⟩
    have hj := joinSpace_length buf hbe
    have hk := length_le_sum_of_ne_nil buf hne
    simp only [List.length_append, List.length_cons, List.length_nil]
    omega

/-- Every chunk the sentence-level loop emits is non-empty and within
twice the budget, except single oversized words. -/
theorem packSentences_sound (maxLen : Nat) :
    ∀ (ss cur : List (List Char)) (clen : Nat),
      clen = (cur.map List.length).sum →
      clen ≤ maxLen →
      (∀ s ∈ cur, s ≠ []) →
      (∀ s ∈ ss, s ≠ []) →
      ∀ c ∈ packSentences maxLen ss cur clen,
        c ≠ [] ∧ (c.length ≤ 2 * maxLen ∨
          ∃ w, c = w ++ ['.'] ∧ maxLen ≤ w.length ∧
            ∀ ch ∈ w, pyIsSpace ch = false)
  | [], cur, clen, hsum, hb, hcur, _ => by
    intro c hc
    rw [packSentences] at hc
    have h := flushChunk_sentences_sound maxLen cur clen hsum hb hcur c hc
    exact ⟨h.1, Or.inl h.2⟩
  | s :: ss, cur, clen, hsum, hb, hcur, hss => by
    intro c hc
    have hs := hss s (List.mem_cons_self s ss)
    have hss2 : ∀ x ∈ ss, x ≠ [] := fun x hx =>
      hss x (List.mem_cons_of_mem s hx)
    rw [packSentences] at hc
    split at hc
    · rw [List.mem_append] at hc
      rcases hc with hc | hc
      · exact packWords_sound maxLen (pyWords s) [] 0 (by simp)
          (Or.inl (Nat.zero_le _)) (by simp)
          (pyWordsAux_sound s [] (by simp)) c hc
      · exact packSentences_sound maxLen ss cur clen hsum hb hcur hss2 c hc
    · next hlong =>
      split at hc
      · rw [List.mem_append] at hc
        rcases hc with hc | hc
        · have h := flushChunk_sentences_sound maxLen cur clen hsum hb hcur c hc
          exact ⟨h.1, Or.inl h.2⟩
        · refine packSentences_sound maxLen ss [s] s.length (by simp)
            (Nat.le_of_not_lt hlong) ?_ hss2 c hc
          intro x hx
          rw [List.mem_singleton] at hx
          subst hx
          exact hs
      · next hfits =>
        refine packSentences_sound maxLen ss (cur ++ [s]) (clen + s.length)
          (by simp [hsum]) (Nat.le_of_not_lt hfits) ?_ hss2 c hc
        intro x hx
        rcases List.mem_append.mp hx with hx | hx
        · exact hcur x hx
        · rw [List.mem_singleton] at hx
          subst hx
          exact hs

/-- The sentences the splitter feeds to the packing loop are all
non-empty. -/
theorem sentencesOf_ne_nil (text : List Char) :
    ∀ s ∈ sentencesOf text, s ≠ [] := by
  intro s hs
  have h := (List.mem_filter.mp hs).2
  simpa [List.isEmpty_iff] using h

/-- C1 counterexample: at `text = "ab cd. efghij"` and `max_length = 5`
the chunks are `["efghij.", "ab cd."]`.  The chunk `"ab cd."` has length
6 > 5 although it is not a single word (it contains a space), so the
claimed bound fails outside its stated exception; moreover the content
`"ab cd"` precedes `"efghij"` in the source text but follows it in the
output, so the claimed ordering fails as well. -/
theorem C1_counterexample :
    split_into_chunks (strL "ab cd. efghij") 5 =
      [strL "efghij.", strL "ab cd."] ∧
    5 < (strL "ab cd.").length ∧
    (strL "ab cd.").any pyIsSpace = true := by
  refine ⟨by decide, by decide, by decide⟩

/-- C1 (amended): every chunk of `split_into_chunks text max_length` is
non-empty, and its length is at most `2 * max_length` (the sentence/word
content of a chunk is capped at `max_length`, but joining spaces and the
appended terminal period are not counted) — except that a single word of
length ≥ `max_length` becomes its own chunk, unsplit, with only a
terminal period appended.  (The source-order clause of the original
claim is dropped: word-split chunks of an oversized sentence are emitted
ahead of the still-buffered preceding sentences, as the counterexample
shows.) -/
theorem C1_amended_chunk_bounds (text : List Char) (maxLen : Nat) :
    ∀ c ∈ split_into_chunks text maxLen,
      c ≠ [] ∧ (c.length ≤ 2 * maxLen ∨
        ∃ w, c = w ++ ['.'] ∧ maxLen ≤ w.length ∧
          ∀ ch ∈ w, pyIsSpace ch = false) := by
  intro c hc
  exact packSentences_sound maxLen (sentencesOf text) [] 0 rfl
    (Nat.zero_le _) (by simp) (sentencesOf_ne_nil text) c hc

/-- Witness for C1 (amended) at `text = "ab cd. efghij"`,
`max_length = 5`: both output chunks satisfy the bound. -/
theorem C1_amended_chunk_bounds_witness :
    (strL "ab cd." ≠ [] ∧ ((strL "ab cd.").length ≤ 2 * 5 ∨
      ∃ w, strL "ab cd." = w ++ ['.'] ∧ 5 ≤ w.length ∧
        ∀ ch ∈ w, pyIsSpace ch = false)) ∧
    (strL "efghij." ≠ [] ∧ ((strL "efghij.").length ≤ 2 * 5 ∨
      ∃ w, strL "efghij." = w ++ ['.'] ∧ 5 ≤ w.length ∧
        ∀ ch ∈ w, pyIsSpace ch = false)) :=
  ⟨C1_amended_chunk_bounds (strL "ab cd. efghij") 5 (strL "ab cd.")
     (by decide),
   C1_amended_chunk_bounds (strL "ab cd. efghij") 5 (strL "efghij.")
     (by decide)⟩

/-- C2 counterexample: at `text = "a? b"` the single chunk is `"a b."`;
ignoring the inserted terminal period leaves non-whitespace content
`"ab"`, while the input has non-whitespace content `"a?b"` — the `?`
(a delimiter immediately followed by whitespace) was consumed by the
splitter, so concatenation does not preserve all non-whitespace
characters. -/
theorem C2_counterexample :
    split_into_chunks (strL "a? b") 400 = [strL "a b."] ∧
    nonWs (List.flatten
      ((split_into_chunks (strL "a? b") 400).map List.dropLast)) = strL "ab" ∧
    nonWs (strL "a? b") = strL "a?b" ∧
    nonWs (List.flatten
      ((split_into_chunks (strL "a? b") 400).map List.dropLast)) ≠
      nonWs (strL "a? b") := by
  refine ⟨by decide, by decide, by decide, by decide⟩

/-- C2 (amended): provided every sentence of the normalised input fits in
`max_length` (so the out-of-order word-split fallback never fires),
concatenating the chunks while ignoring the inserted terminal periods
preserves, in original order, exactly the non-whitespace characters of
the normalised input minus the sentence-delimiter characters
(`.`, `?`, `!`, `;`) that are immediately followed by whitespace — those
the splitter consumes. -/
theorem C2_amended_content (text : List Char) (maxLen : Nat)
    (h : ∀ s ∈ sentencesOf text, s.length ≤ maxLen) :
    nonWs (List.flatten
      ((split_into_chunks text maxLen).map List.dropLast)) =
      nonWs (scrub (normalizeText text)) := by
  have h1 := packSentences_nonWs maxLen (sentencesOf text) [] 0 h
  rw [split_into_chunks, h1]
  have h2 : nonWs (List.flatten (sentencesOf text)) =
      nonWs (scrub (normalizeText text)) := by
    rw [sentencesOf, flatten_filter_nonempty, nonWs_flatten_map_strip,
      nonWs_flatten_splitSentencesAux]
    simp [nonWs]
  simpa [nonWs] using h2

/-- Witness for C2 (amended) at `text = "ab. cd"`, `max_length = 400`. -/
theorem C2_amended_content_witness :
    (∀ s ∈ sentencesOf (strL "ab. cd"), s.length ≤ 400) ∧
    nonWs (List.flatten
      ((split_into_chunks (strL "ab. cd") 400).map List.dropLast)) =
      nonWs (scrub (normalizeText (strL "ab. cd"))) :=
  ⟨by decide, C2_amended_content (strL "ab. cd") 400 (by decide)⟩

end Sentinel
